import Mathlib

/- Shallow embedding of the goal, initiative and review-scoring logic of the
pms-stable performance-management backend (src/backend), with proofs about the
claims of its specification.

Conventions of the embedding:
* UUID primary keys are modelled as natural numbers, timestamps as natural
  numbers.
* The relational store is modelled as lists of records.  Each API operation is
  a pure function from the store to an Except value: an error models an
  HTTPException or ValueError raised before the transaction commits, in which
  case the store is unchanged (in the source every raise happens before
  db.commit(), so the session is rolled back and nothing is persisted).
* Outcomes of the permission service (user_has_permission,
  user_can_access_organization) are passed in as boolean parameters, since the
  permission subsystem is outside the scope of the claims.
* Enumerations follow the later, scope-based revision of the source: the
  routers, schemas and alembic migrations use GoalScope and the initiative
  statuses PENDING / ONGOING / UNDER_REVIEW, which the stale copy of models.py
  in the snapshot does not yet list (the specification's design notes flag the
  two-revision disagreement and treat the scope-based revision as the
  superseding one).
-/

namespace PMS

/-- Error shape of the API boundary: HTTP status code plus detail message. -/
structure HttpError where
  status : Nat
  detail : String
deriving DecidableEq

/- ===================== Goal data model (models.py) ===================== -/

/-- GoalScope enumeration (schemas/goals.py). -/
inductive GoalScope
  | companyWide
  | departmental
  | individual
deriving DecidableEq

/-- GoalStatus enumeration (models.py, schemas/goals.py). -/
inductive GoalStatus
  | pendingApproval
  | active
  | achieved
  | discarded
  | rejected
deriving DecidableEq

/-- Quarter enumeration (models.py). -/
inductive Quarter
  | q1
  | q2
  | q3
  | q4
deriving DecidableEq

/-- Goal row (models.py class Goal, restricted to the columns the claims
mention; timestamp bookkeeping columns that no claim mentions are elided). -/
structure Goal where
  id : Nat
  parentGoalId : Option Nat := none
  scope : GoalScope
  status : GoalStatus := .active
  progressPercentage : Int := 0
  quarter : Option Quarter := none
  year : Option Int := none
  frozen : Bool := false
  frozenAt : Option Nat := none
  frozenBy : Option Nat := none
  createdBy : Nat
  ownerId : Option Nat := none
  approvedAt : Option Nat := none
  approvedBy : Option Nat := none
  rejectionReason : Option String := none
deriving DecidableEq

/-- Freeze-log action ('freeze' or 'unfreeze' in the source). -/
inductive FreezeAction
  | freeze
  | unfreeze
deriving DecidableEq

/-- GoalFreezeLog row (models.py class GoalFreezeLog). -/
structure GoalFreezeLog where
  action : FreezeAction
  quarter : Quarter
  year : Int
  affectedGoalsCount : Nat
  scheduledUnfreezeDate : Option Nat := none
  isEmergencyOverride : Bool := false
  emergencyReason : Option String := none
  performedBy : Nat
deriving DecidableEq

/-- GoalProgressReport row (models.py class GoalProgressReport). -/
structure GoalProgressReport where
  goalId : Nat
  oldPercentage : Int
  newPercentage : Int
  report : String
  updatedBy : Nat
deriving DecidableEq

/-- GoalAssignment row (models.py class GoalAssignment), restricted to the
columns respond_to_assigned_goal touches. -/
structure GoalAssignment where
  goalId : Nat
  assignedTo : Nat
  status : GoalStatus := .pendingApproval
  responseMessage : Option String := none
deriving DecidableEq

/-- The slice of the relational store the goal endpoints read and write. -/
structure GoalDB where
  goals : List Goal
  freezeLogs : List GoalFreezeLog := []
  progressReports : List GoalProgressReport := []
  assignments : List GoalAssignment := []
deriving DecidableEq

/-- db.query(Goal).filter(Goal.id == goal_id).first() -/
def findGoal (db : GoalDB) (gid : Nat) : Option Goal :=
  db.goals.find? (fun g => g.id == gid)

/- ===================== Freeze workflow (routers/goals.py) ===================== -/

/-- Filter of freeze_goals_for_quarter: INDIVIDUAL-scope goals of the requested
quarter and year that are not already frozen. -/
def freezeTarget (q : Quarter) (y : Int) (g : Goal) : Bool :=
  decide (g.scope = .individual ∧ g.quarter = some q ∧ g.year = some y ∧ g.frozen = false)

/-- Filter of unfreeze_goals_for_quarter: INDIVIDUAL-scope goals of the
requested quarter and year that are currently frozen. -/
def unfreezeTarget (q : Quarter) (y : Int) (g : Goal) : Bool :=
  decide (g.scope = .individual ∧ g.quarter = some q ∧ g.year = some y ∧ g.frozen = true)

/-- Embedding of freeze_goals_for_quarter (routers/goals.py).  The permission
gate is the boolean outcome of user_has_permission(user, goal_freeze).  Both
the zero-match branch and the nonzero branch append exactly one GoalFreezeLog
row before committing. -/
def freezeGoalsForQuarter (hasFreezePerm : Bool) (q : Quarter) (y : Int)
    (sched : Option Nat) (userId now : Nat) (db : GoalDB) : Except HttpError GoalDB :=
  if !hasFreezePerm then
    .error ⟨403, "You do not have permission to freeze goals"⟩
  else
    let matching := db.goals.filter (freezeTarget q y)
    if matching.isEmpty then
      .ok { db with freezeLogs := db.freezeLogs ++
        [{ action := .freeze, quarter := q, year := y, affectedGoalsCount := 0,
           scheduledUnfreezeDate := sched, performedBy := userId }] }
    else
      .ok { db with
        goals := db.goals.map (fun g => if freezeTarget q y g then
          { g with frozen := true, frozenAt := some now, frozenBy := some userId } else g),
        freezeLogs := db.freezeLogs ++
          [{ action := .freeze, quarter := q, year := y,
             affectedGoalsCount := matching.length,
             scheduledUnfreezeDate := sched, performedBy := userId }] }

/-- Embedding of unfreeze_goals_for_quarter (routers/goals.py), same shape with
the emergency-override metadata in the log row. -/
def unfreezeGoalsForQuarter (hasFreezePerm : Bool) (q : Quarter) (y : Int)
    (isEmergency : Bool) (emergencyReason : Option String) (userId : Nat)
    (db : GoalDB) : Except HttpError GoalDB :=
  if !hasFreezePerm then
    .error ⟨403, "You do not have permission to unfreeze goals"⟩
  else
    let matching := db.goals.filter (unfreezeTarget q y)
    if matching.isEmpty then
      .ok { db with freezeLogs := db.freezeLogs ++
        [{ action := .unfreeze, quarter := q, year := y, affectedGoalsCount := 0,
           isEmergencyOverride := isEmergency, emergencyReason := emergencyReason,
           performedBy := userId }] }
    else
      .ok { db with
        goals := db.goals.map (fun g => if unfreezeTarget q y g then
          { g with frozen := false, frozenAt := none, frozenBy := none } else g),
        freezeLogs := db.freezeLogs ++
          [{ action := .unfreeze, quarter := q, year := y,
             affectedGoalsCount := matching.length,
             isEmergencyOverride := isEmergency, emergencyReason := emergencyReason,
             performedBy := userId }] }

/- ===================== Goal endpoints (routers/goals.py) ===================== -/

/-- Embedding of update_goal (PUT goal_id): permission gate, lookup, frozen
gate, then the field update.  The successful field-update branch is abstracted
by the upd function since no claim concerns its details; all checks preceding
it are kept in source order. -/
def updateGoal (hasEditPerm : Bool) (gid : Nat) (upd : Goal → Goal) (db : GoalDB) :
    Except HttpError GoalDB :=
  if !hasEditPerm then .error ⟨403, "Insufficient permissions"⟩
  else match findGoal db gid with
    | none => .error ⟨404, "Goal not found"⟩
    | some g =>
      if g.frozen then .error ⟨400, "Cannot edit frozen goal"⟩
      else .ok { db with goals := db.goals.map (fun x => if x.id == gid then upd x else x) }

/-- Embedding of approve_goal (routers/goals.py): lookup, scope gate, status
gate, approver gate (boolean outcome of the supervisor-or-goal_approve check),
frozen gate, then the approval or rejection update. -/
def approveGoal (canApprove : Bool) (userId gid : Nat) (approved : Bool)
    (rejectionReason : Option String) (now : Nat) (db : GoalDB) : Except HttpError GoalDB :=
  match findGoal db gid with
  | none => .error ⟨404, "Goal not found"⟩
  | some g =>
    if g.scope ≠ .individual then
      .error ⟨400, "Only INDIVIDUAL goals require approval"⟩
    else if g.status ≠ .pendingApproval then
      .error ⟨400, "Goal is not pending approval"⟩
    else if !canApprove then
      .error ⟨403, "Only supervisors or authorized users can approve goals"⟩
    else if g.frozen then
      .error ⟨400, "Cannot approve frozen goal"⟩
    else
      .ok { db with goals := db.goals.map (fun x => if x.id == gid then
        (if approved then
          { x with status := .active, approvedAt := some now,
                   approvedBy := some userId, rejectionReason := none }
        else
          { x with status := .rejected, rejectionReason := rejectionReason,
                   approvedAt := some now, approvedBy := some userId }) else x) }

/-- Embedding of respond_to_assigned_goal (routers/goals.py): lookup, owner
gate, status gate, frozen gate, assignment lookup, then the accept or decline
update of goal and assignment. -/
def respondGoal (userId gid : Nat) (accepted : Bool) (responseMessage : Option String)
    (now : Nat) (db : GoalDB) : Except HttpError GoalDB :=
  match findGoal db gid with
  | none => .error ⟨404, "Goal not found"⟩
  | some g =>
    if g.ownerId ≠ some userId then
      .error ⟨403, "You can only respond to goals assigned to you"⟩
    else if g.status ≠ .pendingApproval then
      .error ⟨400, "Goal is not pending approval"⟩
    else if g.frozen then
      .error ⟨400, "Cannot respond to frozen goal"⟩
    else match db.assignments.find? (fun a => a.goalId == gid && a.assignedTo == userId) with
      | none => .error ⟨404, "Goal assignment not found"⟩
      | some _ =>
        .ok { db with
          goals := db.goals.map (fun x => if x.id == gid then
            (if accepted then
              { x with status := .active, approvedAt := some now, approvedBy := some userId }
            else
              { x with status := .rejected,
                       rejectionReason := some (responseMessage.getD "Declined by supervisee") })
            else x),
          assignments := db.assignments.map (fun a =>
            if a.goalId == gid && a.assignedTo == userId then
              { a with status := if accepted then .active else .rejected,
                       responseMessage := responseMessage } else a) }

/-- Embedding of delete_goal (routers/goals.py): lookup, frozen gate,
creator-or-owner-or-goal_edit gate, child-goals gate, then the delete. -/
def deleteGoal (hasEditPerm : Bool) (userId gid : Nat) (db : GoalDB) :
    Except HttpError GoalDB :=
  match findGoal db gid with
  | none => .error ⟨404, "Goal not found"⟩
  | some g =>
    if g.frozen then .error ⟨400, "Cannot delete frozen goal"⟩
    else if !(g.createdBy == userId || g.ownerId == some userId || hasEditPerm) then
      .error ⟨403, "You do not have permission to delete this goal"⟩
    else if !(db.goals.filter (fun c => c.parentGoalId == some gid)).isEmpty then
      .error ⟨400, "Cannot delete goal with child goals. Please delete or reassign child goals first."⟩
    else
      .ok { db with goals := db.goals.filter (fun x => x.id != gid) }

/-- Embedding of the progress-update pipeline: the Pydantic request model
GoalProgressUpdate (schemas/goals.py: new_percentage between 0 and 100, report
of minimum length 1 — violations are rejected with 422 before the handler
runs), then the handler update_goal_progress (routers/goals.py: permission
gate, lookup), then the cascade-service call.
Modelled from the spec: the body of GoalCascadeService.update_goal_progress
lives in utils/goal_cascade.py, which is absent from the source snapshot (only
its call sites are present).  Per spec section 4.1 it rejects goals that have
children (only leaf goals accept manual percentage edits) and persists every
change as an immutable progress-report row; the upward percentage propagation
the spec also mentions is not modelled, as no claim depends on it. -/
def updateGoalProgress (hasProgressPerm : Bool) (userId gid : Nat)
    (newPercentage : Int) (report : String) (db : GoalDB) : Except HttpError GoalDB :=
  if ¬(0 ≤ newPercentage ∧ newPercentage ≤ 100) then
    .error ⟨422, "ensure this value is between 0 and 100"⟩
  else if report.length < 1 then
    .error ⟨422, "ensure this value has at least 1 characters"⟩
  else if !hasProgressPerm then
    .error ⟨403, "Insufficient permissions"⟩
  else match findGoal db gid with
    | none => .error ⟨404, "Goal not found"⟩
    | some g =>
      if ¬(db.goals.filter (fun c => c.parentGoalId == some gid)).isEmpty then
        .error ⟨400, "Only leaf goals accept manual progress updates"⟩
      else
        .ok { db with
          goals := db.goals.map (fun x => if x.id == gid then
            { x with progressPercentage := newPercentage } else x),
          progressReports := db.progressReports ++
            [{ goalId := gid, oldPercentage := g.progressPercentage,
               newPercentage := newPercentage, report := report, updatedBy := userId }] }

/- ===================== Achievement cascade ===================== -/

/-- Child goals of a given goal id. -/
def childrenOf (goals : List Goal) (gid : Nat) : List Goal :=
  goals.filter (fun g => g.parentGoalId == some gid)

/-- Transition one goal to ACHIEVED with percentage 100. -/
def markAchieved (gid : Nat) (goals : List Goal) : List Goal :=
  goals.map (fun g => if g.id == gid then
    { g with status := .achieved, progressPercentage := 100 } else g)

/-- Parent id of a goal, read from the store. -/
def parentOf (goals : List Goal) (gid : Nat) : Option Nat :=
  (goals.find? (fun g => g.id == gid)).bind (fun g => g.parentGoalId)

/-- Modelled from the spec: GoalCascadeService.check_goal_auto_achievement,
whose body lives in utils/goal_cascade.py, absent from the source snapshot
(routers/goals.py only calls it).  Spec section 4.1: after any child reaches
ACHIEVED the engine checks whether all siblings are ACHIEVED; if so the parent
is transitioned to ACHIEVED with percentage set to 100, recursively re-checking
the grandparent.  The recursion is fuel-bounded, following the spec's design
note that recursive cascade operations are traversals bounded by tree depth. -/
def checkGoalAutoAchievement : Nat → Nat → List Goal → List Goal
  | 0, _, goals => goals
  | fuel + 1, gid, goals =>
    let children := childrenOf goals gid
    if children ≠ [] ∧ ∀ c ∈ children, c.status = .achieved then
      let updated := markAchieved gid goals
      match parentOf goals gid with
      | some p => checkGoalAutoAchievement fuel p updated
      | none => updated
    else goals

/-- The achievement check with enough fuel for any ancestor chain in the
store (an ancestor chain never revisits more records than the store holds). -/
def runAchievementCheck (goals : List Goal) (gid : Nat) : List Goal :=
  checkGoalAutoAchievement (goals.length + 1) gid goals

/-- Embedding of the non-DISCARDED branch of update_goal_status
(routers/goals.py): set the status; on ACHIEVED also set the percentage to 100
and trigger the parent achievement check.  The DISCARDED branch delegates to
the missing cascade service and is not modelled, as no claim concerns it. -/
def updateGoalStatus (gid : Nat) (newStatus : GoalStatus) (db : GoalDB) : GoalDB :=
  let goals2 := db.goals.map (fun g => if g.id == gid then
    (if newStatus = .achieved then
      { g with status := newStatus, progressPercentage := 100 }
    else { g with status := newStatus }) else g)
  if newStatus = .achieved then
    match parentOf db.goals gid with
    | some p => { db with goals := runAchievementCheck goals2 p }
    | none => { db with goals := goals2 }
  else { db with goals := goals2 }

/- ===================== Initiative data model (models.py, schemas/initiatives.py) ===================== -/

/-- InitiativeStatus enumeration: the union of models.py and the members the
alembic migrations and schemas/initiatives.py add (PENDING, ONGOING,
UNDER_REVIEW), which the workflow module references. -/
inductive InitiativeStatus
  | pendingApproval
  | assigned
  | pending
  | ongoing
  | underReview
  | started
  | completed
  | approved
  | rejected
  | overdue
deriving DecidableEq

/-- InitiativeType enumeration. -/
inductive InitiativeType
  | individual
  | group
deriving DecidableEq

/-- ExtensionStatus enumeration. -/
inductive ExtensionStatus
  | pending
  | approved
  | denied
deriving DecidableEq

/-- UserStatus enumeration (models.py). -/
inductive UserStatus
  | active
  | suspended
  | onLeave
  | archived
deriving DecidableEq

/-- User row, restricted to the columns the initiative workflow reads. -/
structure UserRec where
  id : Nat
  supervisorId : Option Nat := none
  organizationId : Option Nat := none
  status : UserStatus := .active
deriving DecidableEq

/-- Initiative row (models.py class Initiative), restricted to the columns the
workflow touches. -/
structure Initiative where
  id : Nat
  type : InitiativeType
  status : InitiativeStatus
  dueDate : Nat
  createdBy : Nat
  teamHeadId : Option Nat := none
  assignedBy : Option Nat := none
  approvedAt : Option Nat := none
  score : Option Nat := none
deriving DecidableEq

/-- InitiativeAssignment row. -/
structure InitiativeAssignmentRec where
  initiativeId : Nat
  userId : Nat
deriving DecidableEq

/-- InitiativeSubmission row. -/
structure InitiativeSubmissionRec where
  initiativeId : Nat
  report : String
  submittedBy : Nat
deriving DecidableEq

/-- InitiativeExtension row (models.py: status defaults to PENDING). -/
structure InitiativeExtensionRec where
  id : Nat
  initiativeId : Nat
  requestedBy : Nat
  newDueDate : Nat
  reason : String
  status : ExtensionStatus := .pending
  reviewedBy : Option Nat := none
deriving DecidableEq

/-- InitiativeDocument row. -/
structure InitiativeDocumentRec where
  id : Nat
  initiativeId : Option Nat := none
  uploadedBy : Nat
deriving DecidableEq

/-- The slice of the relational store the initiative workflow reads and
writes. -/
structure InitiativeDB where
  users : List UserRec := []
  initiatives : List Initiative := []
  assignments : List InitiativeAssignmentRec := []
  submissions : List InitiativeSubmissionRec := []
  extensions : List InitiativeExtensionRec := []
  documents : List InitiativeDocumentRec := []
deriving DecidableEq

/- ===================== Initiative workflow (utils/initiative_workflows.py) ===================== -/

/-- Embedding of the per-assignee body of validate_initiative_assignment.
viewAll is the outcome of user_has_permission(creator, initiative_view_all);
canAccessOrg is the outcome of user_can_access_organization. -/
def validateAssignee (viewAll : Bool) (canAccessOrg : Option Nat → Bool)
    (creator : UserRec) (db : InitiativeDB) (aid : Nat) : Except String Unit :=
  match db.users.find? (fun u => u.id == aid) with
  | none => .error "User not found"
  | some assignee =>
    if viewAll then
      if !canAccessOrg assignee.organizationId then
        .error "Cannot assign initiative to user outside your scope"
      else if assignee.status ≠ .active then
        .error "Cannot assign initiative to inactive user"
      else .ok ()
    else
      if creator.organizationId ≠ assignee.organizationId then
        .error "Cannot assign initiative to user outside your department"
      else if assignee.status ≠ .active then
        .error "Cannot assign initiative to inactive user"
      else .ok ()

/-- Embedding of validate_initiative_assignment: validate each assignee in
order, stopping at the first failure. -/
def validateInitiativeAssignment (viewAll : Bool) (canAccessOrg : Option Nat → Bool)
    (creator : UserRec) (db : InitiativeDB) : List Nat → Except String Unit
  | [] => .ok ()
  | aid :: rest =>
    match validateAssignee viewAll canAccessOrg creator db aid with
    | .error e => .error e
    | .ok _ => validateInitiativeAssignment viewAll canAccessOrg creator db rest

/-- Embedding of validate_document_ownership. -/
def validateDocumentOwnership (creator : UserRec) (db : InitiativeDB) :
    List Nat → Except String Unit
  | [] => .ok ()
  | did :: rest =>
    match db.documents.find? (fun d => d.id == did) with
    | none => .error "Document not found"
    | some doc =>
      if doc.uploadedBy ≠ creator.id then
        .error "Cannot attach document not owned by you"
      else if doc.initiativeId ≠ none then
        .error "Document is already attached to another initiative"
      else validateDocumentOwnership creator db rest

/-- Whether the creator has any supervisee: the count of users whose
supervisor_id equals the creator id is positive. -/
def hasSupervisees (db : InitiativeDB) (creatorId : Nat) : Bool :=
  db.users.any (fun u => u.supervisorId == some creatorId)

/-- The initial-status rule of create_initiative: self-assignment yields
PENDING_APPROVAL; a supervisor assigning others (not including self) yields
ASSIGNED; anything else defaults to PENDING_APPROVAL. -/
def initialInitiativeStatus (db : InitiativeDB) (creatorId : Nat)
    (assigneeIds : List Nat) : InitiativeStatus :=
  if creatorId ∈ assigneeIds ∧ assigneeIds.length = 1 then .pendingApproval
  else if hasSupervisees db creatorId ∧ creatorId ∉ assigneeIds then .assigned
  else .pendingApproval

/-- Embedding of create_initiative (utils/initiative_workflows.py): validate
the assignment scope and document ownership, determine the initial status, and
insert the initiative with its assignment fan-out.  For an ASSIGNED initiative
assigned_by is the creator and approved_at is set (no approval step). -/
def createInitiative (viewAll : Bool) (canAccessOrg : Option Nat → Bool)
    (creator : UserRec) (itype : InitiativeType) (dueDate : Nat)
    (assigneeIds : List Nat) (teamHeadId : Option Nat) (docIds : List Nat)
    (newId now : Nat) (db : InitiativeDB) : Except String (Initiative × InitiativeDB) :=
  match validateInitiativeAssignment viewAll canAccessOrg creator db assigneeIds with
  | .error e => .error e
  | .ok _ =>
    match validateDocumentOwnership creator db docIds with
    | .error e => .error e
    | .ok _ =>
      let st := initialInitiativeStatus db creator.id assigneeIds
      let ini : Initiative :=
        { id := newId, type := itype, status := st, dueDate := dueDate,
          createdBy := creator.id, teamHeadId := teamHeadId,
          assignedBy := if st = .assigned then some creator.id else none,
          approvedAt := if st = .assigned then some now else none }
      .ok (ini, { db with
        initiatives := db.initiatives ++ [ini],
        assignments := db.assignments ++
          assigneeIds.map (fun a => { initiativeId := newId, userId := a }),
        documents := db.documents.map (fun d => if d.id ∈ docIds then
          { d with initiativeId := some newId } else d) })

/-- Embedding of submit_initiative (utils/initiative_workflows.py).  A missing
initiative makes the source return False without writing anything, modelled as
ok with the store unchanged; every raise happens before commit, so an error
leaves the store unchanged (the submission added to the session before the
document check is rolled back with the failed transaction). -/
def submitInitiative (db : InitiativeDB) (iid userId : Nat) (report : String)
    (docIds : List Nat) : Except String InitiativeDB :=
  match db.initiatives.find? (fun i => i.id == iid) with
  | none => .ok db
  | some ini =>
    if ini.status = .overdue ∧
        (db.extensions.find? (fun e => e.initiativeId == iid && e.status == .pending)).isSome then
      .error "Cannot submit overdue initiative with pending extension request"
    else if ini.status ∉ [InitiativeStatus.started, InitiativeStatus.overdue] then
      .error "Initiative must be started to submit"
    else if ini.type = .group ∧ ini.teamHeadId ≠ some userId then
      .error "Only team head can submit group initiatives"
    else if ini.type ≠ .group ∧
        (db.assignments.find? (fun a => a.initiativeId == iid && a.userId == userId)).isNone then
      .error "User is not assigned to this initiative"
    else if docIds.any (fun d =>
        (db.documents.find? (fun doc => doc.id == d && doc.initiativeId == some iid)).isNone) then
      .error "Document not found or not associated with this initiative"
    else
      .ok { db with
        submissions := db.submissions ++
          [{ initiativeId := iid, report := report, submittedBy := userId }],
        initiatives := db.initiatives.map (fun i => if i.id == iid then
          { i with status := .underReview } else i) }

/-- Embedding of request_extension (utils/initiative_workflows.py): lookup,
group team-head gate or individual assignment gate, the at-most-one-PENDING
gate, then the insert of a new PENDING extension row. -/
def requestExtension (db : InitiativeDB) (iid userId : Nat) (newDueDate extId : Nat)
    (reason : String) : Except String InitiativeDB :=
  match db.initiatives.find? (fun i => i.id == iid) with
  | none => .error "Initiative not found"
  | some ini =>
    if ini.type = .group ∧ ini.teamHeadId ≠ some userId then
      .error "Only team head can request extensions for group initiatives"
    else if ini.type ≠ .group ∧
        (db.assignments.find? (fun a => a.initiativeId == iid && a.userId == userId)).isNone then
      .error "User is not assigned to this initiative"
    else if (db.extensions.find? (fun e => e.initiativeId == iid && e.status == .pending)).isSome then
      .error "Extension request already pending for this initiative"
    else
      .ok { db with extensions := db.extensions ++
        [{ id := extId, initiativeId := iid, requestedBy := userId,
           newDueDate := newDueDate, reason := reason }] }

/-- Embedding of review_extension (utils/initiative_workflows.py).  A missing
extension makes the source return False (modelled as ok, store unchanged); the
extension's initiative is reached through a non-nullable foreign key, so the
missing-initiative branch is unreachable on a well-formed store.  Approval
marks the extension APPROVED, moves the initiative due date to the requested
one and, when the initiative was OVERDUE, restores it to ONGOING; denial only
marks the extension DENIED. -/
def reviewExtension (db : InitiativeDB) (extId reviewerId : Nat) (approved : Bool) :
    Except String InitiativeDB :=
  match db.extensions.find? (fun e => e.id == extId) with
  | none => .ok db
  | some ext =>
    match db.initiatives.find? (fun i => i.id == ext.initiativeId) with
    | none => .error "Initiative not found"
    | some ini =>
      if ini.createdBy ≠ reviewerId then
        .error "Only initiative creator can review extension requests"
      else if ext.status ≠ .pending then
        .error "Extension request has already been reviewed"
      else
        let exts := db.extensions.map (fun e => if e.id == extId then
          { e with status := if approved then .approved else .denied,
                   reviewedBy := some reviewerId } else e)
        if approved then
          .ok { db with
            extensions := exts,
            initiatives := db.initiatives.map (fun i => if i.id == ext.initiativeId then
              { i with dueDate := ext.newDueDate,
                       status := if i.status = .overdue then .ongoing else i.status } else i) }
        else .ok { db with extensions := exts }

/-- At most one PENDING extension row per initiative. -/
def atMostOnePending (db : InitiativeDB) : Prop :=
  ∀ iid, (db.extensions.filter (fun e => e.initiativeId == iid && e.status == .pending)).length ≤ 1

/- ===================== Review scoring (routers/reviews.py) ===================== -/

/-- Review type of an assignment: self, peer or supervisor. -/
inductive ReviewType
  | self
  | peer
  | supervisor
deriving DecidableEq

/-- ReviewAssignment row. -/
structure ReviewAssignmentRec where
  id : Nat
  cycleId : Nat
  revieweeId : Nat
  reviewType : ReviewType
  status : String
deriving DecidableEq

/-- ReviewQuestion row. -/
structure ReviewQuestionRec where
  id : Nat
  traitId : Nat
  isActive : Bool
  appliesToSelf : Bool
  appliesToPeer : Bool
  appliesToSupervisor : Bool
deriving DecidableEq

/-- ReviewResponse row (the ORM model, imported in the source under the alias
ReviewResponseModel). -/
structure ReviewResponseRec where
  assignmentId : Nat
  questionId : Nat
  rating : ℚ
deriving DecidableEq

/-- The slice of the relational store the score calculation reads. -/
structure ReviewDB where
  assignments : List ReviewAssignmentRec := []
  questions : List ReviewQuestionRec := []
  responses : List ReviewResponseRec := []
deriving DecidableEq

/-- The applies_to filter of a question for a review type. -/
def appliesTo (q : ReviewQuestionRec) : ReviewType → Bool
  | .self => q.appliesToSelf
  | .peer => q.appliesToPeer
  | .supervisor => q.appliesToSupervisor

/-- Embedding of _calculate_trait_score_by_type (routers/reviews.py).  The
function filters the completed assignments of the requested type and the
active applicable questions of the trait; with both filters nonempty it then
builds the responses query as
ReviewResponse.assignment_id == assignment.id — but ReviewResponse there
resolves to the Pydantic request model defined earlier in the same file (the
ORM model was imported under the alias ReviewResponseModel precisely because
of that name clash), and the Pydantic class has no assignment_id attribute, so
Python raises AttributeError before any response row is read.  The raise is
modelled as Except.error; the stored response rows are never consulted. -/
def calcTraitScoreByType (db : ReviewDB) (cycleId userId traitId : Nat)
    (rtype : ReviewType) : Except String (Option ℚ) :=
  let completedAssignments := db.assignments.filter (fun a =>
    a.cycleId == cycleId && a.revieweeId == userId &&
    a.reviewType == rtype && a.status == "completed")
  if completedAssignments.isEmpty then .ok none
  else
    let questionIds := (db.questions.filter (fun q =>
      q.traitId == traitId && q.isActive && appliesTo q rtype)).map (fun q => q.id)
    if questionIds.isEmpty then .ok none
    else .error "AttributeError: type object ReviewResponse has no attribute assignment_id"

/-- Embedding of the per-trait weighted-score combination inside
_calculate_user_review_scores (routers/reviews.py): the components present are
weighted 0.2 / 0.3 / 0.5, the total is divided by the sum of the weights
present and multiplied by 10; the result is None when all three components
are None. -/
def weightedScore (selfScore peerScore supervisorScore : Option ℚ) : Option ℚ :=
  if selfScore = none ∧ peerScore = none ∧ supervisorScore = none then none
  else
    let weightedTotal :=
      (match selfScore with | some s => s * (2 / 10) | none => 0) +
      (match peerScore with | some p => p * (3 / 10) | none => 0) +
      (match supervisorScore with | some v => v * (5 / 10) | none => 0)
    let totalWeight :=
      (match selfScore with | some _ => (2 / 10 : ℚ) | none => 0) +
      (match peerScore with | some _ => (3 / 10 : ℚ) | none => 0) +
      (match supervisorScore with | some _ => (5 / 10 : ℚ) | none => 0)
    if 0 < totalWeight then some (weightedTotal / totalWeight * 10) else none

/-- Concrete store witnessing the failing input of the trait-score crash: one
completed self assignment in cycle 1 for user 2, one active self-applicable
question of trait 3, and one stored response with rating 7. -/
def demoReviewDB : ReviewDB :=
  { assignments := [{ id := 10, cycleId := 1, revieweeId := 2, reviewType := .self,
                      status := "completed" }],
    questions := [{ id := 20, traitId := 3, isActive := true, appliesToSelf := true,
                    appliesToPeer := false, appliesToSupervisor := false }],
    responses := [{ assignmentId := 10, questionId := 20, rating := 7 }] }

/- ===================== Concrete stores for witnesses ===================== -/

/-- Two-goal store: goal 1 with a single, achieved child 2. -/
def demoCascadeGoals : List Goal :=
  [{ id := 1, scope := .companyWide, createdBy := 9 },
   { id := 2, parentGoalId := some 1, scope := .departmental, status := .achieved,
     createdBy := 9 }]

/-- A frozen INDIVIDUAL goal pending approval, owned by user 2 who has an
assignment row for it. -/
def demoFrozenGoal : Goal :=
  { id := 1, scope := .individual, status := .pendingApproval, quarter := some .q1,
    year := some 2026, frozen := true, createdBy := 9, ownerId := some 2 }

/-- Store holding the frozen goal and its assignment. -/
def demoFrozenDB : GoalDB :=
  { goals := [demoFrozenGoal], assignments := [{ goalId := 1, assignedTo := 2 }] }

/-- An unfrozen parent goal with one child. -/
def demoParentDB : GoalDB :=
  { goals := [{ id := 1, scope := .companyWide, createdBy := 9 },
              { id := 2, parentGoalId := some 1, scope := .departmental, createdBy := 9 }] }

/-- A single unfrozen leaf goal. -/
def demoLeafGoal : Goal := { id := 1, scope := .individual, createdBy := 9 }

/-- Store holding just the leaf goal. -/
def demoLeafDB : GoalDB := { goals := [demoLeafGoal] }

/-- A creator in organization 5 with one direct report (user 2). -/
def demoCreator : UserRec := { id := 1, organizationId := some 5 }

/-- The creator's direct report. -/
def demoDirectReport : UserRec :=
  { id := 2, supervisorId := some 1, organizationId := some 5 }

/-- Store holding only the two users. -/
def demoInitUsersDB : InitiativeDB := { users := [demoCreator, demoDirectReport] }

/-- A started GROUP initiative created by user 1 with team head 2. -/
def demoGroupInit : Initiative :=
  { id := 11, type := .group, status := .started, dueDate := 30, createdBy := 1,
    teamHeadId := some 2 }

/-- A PENDING extension request for initiative 11. -/
def demoPendingExt : InitiativeExtensionRec :=
  { id := 21, initiativeId := 11, requestedBy := 2, newDueDate := 60,
    reason := "need more time" }

/-- Store with the group initiative and one pending extension. -/
def demoInitDB : InitiativeDB :=
  { users := [demoCreator, demoDirectReport], initiatives := [demoGroupInit],
    extensions := [demoPendingExt] }

/-- The group initiative, but OVERDUE. -/
def demoOverdueInit : Initiative :=
  { id := 11, type := .group, status := .overdue, dueDate := 30, createdBy := 1,
    teamHeadId := some 2 }

/-- Store with the overdue initiative and its pending extension. -/
def demoOverdueDB : InitiativeDB :=
  { initiatives := [demoOverdueInit], extensions := [demoPendingExt] }

/- ===================== Theorems ===================== -/

/-- C2: the claim states that self, peer and supervisor trait scores are the
arithmetic mean of the ratings across the completed assignments of the type.
The code cannot produce any mean: whenever the completed-assignments filter and
the applicable-questions filter are both nonempty — exactly the situation in
which a mean should be computed — the responses query is built on the wrong
ReviewResponse class and Python raises AttributeError.  The result of the
trait-score calculation is therefore always an error or None, never a score,
as evaluated here in general and on the concrete failing store. -/
theorem calcTraitScoreByType_never_yields_a_score :
    (∀ (db : ReviewDB) (cycleId userId traitId : Nat) (rtype : ReviewType),
       (∃ m, calcTraitScoreByType db cycleId userId traitId rtype = .error m) ∨
       calcTraitScoreByType db cycleId userId traitId rtype = .ok none) ∧
    calcTraitScoreByType demoReviewDB 1 2 3 .self =
      .error "AttributeError: type object ReviewResponse has no attribute assignment_id" := by
  constructor
  · intro db cycleId userId traitId rtype
    simp only [calcTraitScoreByType]
    split
    · exact .inr rfl
    · split
      · exact .inr rfl
      · exact .inl ⟨_, rfl⟩
  · rfl

/-- C3 counterexample: with only a supervisor component of 7, the stored
weighted score is 70, not the supervisor average 7 claimed by the spec. -/
theorem weightedScore_supervisor_only_not_exact :
    weightedScore none none (some 7) = some 70 ∧
    (weightedScore none none (some 7) = some 7) = False := by
  constructor
  · simp only [weightedScore]
    norm_num
    intro h
    cases h
  · simp only [weightedScore]
    norm_num

/-- C3 (amended): for a trait with only supervisor responses the weighted
score equals the supervisor average multiplied by 10 — the weight is
renormalized to 1.0 (not left at 0.5) and the ×10 rescale then applies — so it
is ten times the supervisor average rather than half of it. -/
theorem weightedScore_supervisor_only (s : ℚ) :
    weightedScore none none (some s) = some (s * 10) := by
  simp only [weightedScore]
  norm_num
  intro h
  cases h

/-- C3 amended-claim witness: a supervisor-only average of 3 is stored as the
weighted score 30. -/
theorem weightedScore_supervisor_only_witness :
    weightedScore none none (some 3) = some 30 := by
  rw [weightedScore_supervisor_only 3]
  norm_num

/-- Every record of markAchieved gid goals whose id is gid is ACHIEVED with
percentage 100. -/
theorem markAchieved_id_achieved {gid : Nat} {goals : List Goal} :
    ∀ g ∈ markAchieved gid goals, g.id = gid →
      g.status = .achieved ∧ g.progressPercentage = 100 := by
  intro g hg hid
  simp only [markAchieved, List.mem_map] at hg
  obtain ⟨g0, hg0, rfl⟩ := hg
  by_cases h : g0.id = gid
  · simp [h]
  · simp [h] at hid

/-- The achievement check only ever rewrites records to ACHIEVED with
percentage 100: if every record with a given id already is, it stays so. -/
theorem checkGoalAutoAchievement_preserves {gid : Nat} :
    ∀ (fuel p : Nat) (goals : List Goal),
      (∀ g ∈ goals, g.id = gid → g.status = .achieved ∧ g.progressPercentage = 100) →
      ∀ g ∈ checkGoalAutoAchievement fuel p goals, g.id = gid →
        g.status = .achieved ∧ g.progressPercentage = 100 := by
  intro fuel
  induction fuel with
  | zero =>
    intro p goals h
    simpa [checkGoalAutoAchievement] using h
  | succ n ih =>
    intro p goals h g hg hid
    have hm : ∀ g2 ∈ markAchieved p goals, g2.id = gid →
        g2.status = .achieved ∧ g2.progressPercentage = 100 := by
      intro g2 hg2 hid2
      simp only [markAchieved, List.mem_map] at hg2
      obtain ⟨g0, hg0, rfl⟩ := hg2
      by_cases hp0 : g0.id = p
      · simp [hp0]
      · simp [hp0] at hid2 ⊢
        exact h g0 hg0 hid2
    simp only [checkGoalAutoAchievement] at hg
    by_cases hc : childrenOf goals p ≠ [] ∧ ∀ c ∈ childrenOf goals p, c.status = .achieved
    · rw [if_pos hc] at hg
      cases hpar : parentOf goals p with
      | some q =>
        rw [hpar] at hg
        exact ih q (markAchieved p goals) hm g hg hid
      | none =>
        rw [hpar] at hg
        exact hm g hg hid
    · rw [if_neg hc] at hg
      exact h g hg hid

/-- markAchieved does not change the ids of the records. -/
theorem markAchieved_map_id (gid : Nat) (goals : List Goal) :
    (markAchieved gid goals).map Goal.id = goals.map Goal.id := by
  unfold markAchieved
  rw [List.map_map]
  apply List.map_congr_left
  intro g _
  by_cases h : g.id = gid <;> simp [h]

/-- The achievement check does not change the ids of the records. -/
theorem checkGoalAutoAchievement_map_id :
    ∀ (fuel p : Nat) (goals : List Goal),
      (checkGoalAutoAchievement fuel p goals).map Goal.id = goals.map Goal.id := by
  intro fuel
  induction fuel with
  | zero => intro p goals; rfl
  | succ n ih =>
    intro p goals
    simp only [checkGoalAutoAchievement]
    by_cases hc : childrenOf goals p ≠ [] ∧ ∀ c ∈ childrenOf goals p, c.status = .achieved
    · rw [if_pos hc]
      cases hpar : parentOf goals p with
      | some q => rw [ih q (markAchieved p goals), markAchieved_map_id]
      | none => exact markAchieved_map_id p goals
    · rw [if_neg hc]

/-- C1: for every goal G with at least one child, if every child of G is
ACHIEVED then the achievement check on G (as triggered by update_goal_status
when a child transitions to ACHIEVED) leaves G with status ACHIEVED and
progress_percentage 100, and the remainder of the run is exactly the same
check applied recursively to G's parent (when G has one). -/
theorem achievement_check_marks_parent_and_recurses
    (goals : List Goal) (G : Nat)
    (hex : ∃ g ∈ goals, g.id = G)
    (hne : childrenOf goals G ≠ [])
    (hall : ∀ c ∈ childrenOf goals G, c.status = .achieved) :
    (∃ g ∈ runAchievementCheck goals G, g.id = G ∧
       g.status = .achieved ∧ g.progressPercentage = 100) ∧
    runAchievementCheck goals G =
      (match parentOf goals G with
       | some p => checkGoalAutoAchievement goals.length p (markAchieved G goals)
       | none => markAchieved G goals) := by
  have hrun : runAchievementCheck goals G =
      (match parentOf goals G with
       | some p => checkGoalAutoAchievement goals.length p (markAchieved G goals)
       | none => markAchieved G goals) := by
    simp only [runAchievementCheck, checkGoalAutoAchievement]
    rw [if_pos ⟨hne, hall⟩]
  refine ⟨?_, hrun⟩
  obtain ⟨g0, hg0, hid0⟩ := hex
  have hGmem : G ∈ goals.map Goal.id := List.mem_map.mpr ⟨g0, hg0, hid0⟩
  have hids : (runAchievementCheck goals G).map Goal.id = goals.map Goal.id := by
    rw [hrun]
    cases hpar : parentOf goals G with
    | some p => rw [checkGoalAutoAchievement_map_id, markAchieved_map_id]
    | none => exact markAchieved_map_id G goals
  obtain ⟨g, hg, hgid⟩ := List.mem_map.mp (hids.symm ▸ hGmem)
  refine ⟨g, hg, hgid, ?_⟩
  rw [hrun] at hg
  cases hpar : parentOf goals G with
  | some p =>
    rw [hpar] at hg
    exact checkGoalAutoAchievement_preserves goals.length p (markAchieved G goals)
      markAchieved_id_achieved g hg hgid
  | none =>
    rw [hpar] at hg
    exact markAchieved_id_achieved g hg hgid

/-- C1 witness: in the two-goal store where goal 1 has the single achieved
child 2, the check run on 1 marks it ACHIEVED with percentage 100. -/
theorem achievement_check_witness :
    ∃ g ∈ runAchievementCheck demoCascadeGoals 1, g.id = 1 ∧
      g.status = .achieved ∧ g.progressPercentage = 100 :=
  (achievement_check_marks_parent_and_recurses demoCascadeGoals 1
    (by decide) (by decide) (by decide)).1

/-- C5: an authorized freeze (and unfreeze) request always succeeds with
exactly one GoalFreezeLog row appended whose affected_goals_count is the
number of matching goals — zero rows matched still logs with count 0 — and it
never touches a goal outside the INDIVIDUAL/quarter/year/not-already-in-state
filter: non-matching goals survive unchanged and every stored goal is either
an original or a matching original with just the frozen metadata rewritten. -/
theorem freeze_unfreeze_always_logged
    (q : Quarter) (y : Int) (sched : Option Nat) (isEmergency : Bool)
    (emergencyReason : Option String) (userId now : Nat) (db : GoalDB) :
    ((∀ db2, freezeGoalsForQuarter true q y sched userId now db = .ok db2 →
        db2.freezeLogs = db.freezeLogs ++
          [{ action := .freeze, quarter := q, year := y,
             affectedGoalsCount := (db.goals.filter (freezeTarget q y)).length,
             scheduledUnfreezeDate := sched, performedBy := userId }] ∧
        (db.goals.filter (freezeTarget q y) = [] → db2.goals = db.goals) ∧
        (∀ g ∈ db.goals, freezeTarget q y g = false → g ∈ db2.goals) ∧
        (∀ g2 ∈ db2.goals, g2 ∈ db.goals ∨ ∃ g ∈ db.goals, freezeTarget q y g = true ∧
           g2 = { g with frozen := true, frozenAt := some now, frozenBy := some userId })) ∧
     (∃ db2, freezeGoalsForQuarter true q y sched userId now db = .ok db2)) ∧
    ((∀ db2, unfreezeGoalsForQuarter true q y isEmergency emergencyReason userId db = .ok db2 →
        db2.freezeLogs = db.freezeLogs ++
          [{ action := .unfreeze, quarter := q, year := y,
             affectedGoalsCount := (db.goals.filter (unfreezeTarget q y)).length,
             isEmergencyOverride := isEmergency, emergencyReason := emergencyReason,
             performedBy := userId }] ∧
        (db.goals.filter (unfreezeTarget q y) = [] → db2.goals = db.goals) ∧
        (∀ g ∈ db.goals, unfreezeTarget q y g = false → g ∈ db2.goals) ∧
        (∀ g2 ∈ db2.goals, g2 ∈ db.goals ∨ ∃ g ∈ db.goals, unfreezeTarget q y g = true ∧
           g2 = { g with frozen := false, frozenAt := none, frozenBy := none })) ∧
     (∃ db2, unfreezeGoalsForQuarter true q y isEmergency emergencyReason userId db = .ok db2)) := by
  constructor
  · constructor
    · intro db2 hok
      simp only [freezeGoalsForQuarter] at hok
      split at hok
      · simp at hok
      · split at hok
        case isTrue hm =>
          have hnil : db.goals.filter (freezeTarget q y) = [] := by
            simpa [List.isEmpty_iff] using hm
          injection hok with h
          subst h
          refine ⟨by simp [hnil], fun _ => rfl, fun g hg _ => hg, fun g2 hg2 => .inl hg2⟩
        case isFalse hm =>
          injection hok with h
          subst h
          refine ⟨rfl, ?_, ?_, ?_⟩
          · intro hnil
            exact absurd (by simp [hnil]) hm
          · intro g hg hf
            have hval : (if freezeTarget q y g then
                { g with frozen := true, frozenAt := some now, frozenBy := some userId }
                else g) = g := by rw [hf]; rfl
            exact hval ▸ List.mem_map.mpr ⟨g, hg, rfl⟩
          · intro g2 hg2
            obtain ⟨g, hg, rfl⟩ := List.mem_map.mp hg2
            by_cases hf : freezeTarget q y g
            · exact .inr ⟨g, hg, hf, by rw [if_pos hf]⟩
            · left
              have hval : (if freezeTarget q y g then
                  { g with frozen := true, frozenAt := some now, frozenBy := some userId }
                  else g) = g := by rw [if_neg (by simpa using hf)]
              rw [hval]
              exact hg
    · by_cases hm : (db.goals.filter (freezeTarget q y)).isEmpty
      · exact ⟨_, by simp only [freezeGoalsForQuarter]; rw [if_neg (by simp), if_pos hm]⟩
      · exact ⟨_, by simp only [freezeGoalsForQuarter]; rw [if_neg (by simp), if_neg hm]⟩
  · constructor
    · intro db2 hok
      simp only [unfreezeGoalsForQuarter] at hok
      split at hok
      · simp at hok
      · split at hok
        case isTrue hm =>
          have hnil : db.goals.filter (unfreezeTarget q y) = [] := by
            simpa [List.isEmpty_iff] using hm
          injection hok with h
          subst h
          refine ⟨by simp [hnil], fun _ => rfl, fun g hg _ => hg, fun g2 hg2 => .inl hg2⟩
        case isFalse hm =>
          injection hok with h
          subst h
          refine ⟨rfl, ?_, ?_, ?_⟩
          · intro hnil
            exact absurd (by simp [hnil]) hm
          · intro g hg hf
            have hval : (if unfreezeTarget q y g then
                { g with frozen := false, frozenAt := none, frozenBy := none }
                else g) = g := by rw [hf]; rfl
            exact hval ▸ List.mem_map.mpr ⟨g, hg, rfl⟩
          · intro g2 hg2
            obtain ⟨g, hg, rfl⟩ := List.mem_map.mp hg2
            by_cases hf : unfreezeTarget q y g
            · exact .inr ⟨g, hg, hf, by rw [if_pos hf]⟩
            · left
              have hval : (if unfreezeTarget q y g then
                  { g with frozen := false, frozenAt := none, frozenBy := none }
                  else g) = g := by rw [if_neg (by simpa using hf)]
              rw [hval]
              exact hg
    · by_cases hm : (db.goals.filter (unfreezeTarget q y)).isEmpty
      · exact ⟨_, by simp only [unfreezeGoalsForQuarter]; rw [if_neg (by simp), if_pos hm]⟩
      · exact ⟨_, by simp only [unfreezeGoalsForQuarter]; rw [if_neg (by simp), if_neg hm]⟩

/-- C5 witness: freezing Q1 2026 on an empty store still succeeds and appends
one log row with affected_goals_count 0. -/
theorem freeze_zero_match_witness :
    ∃ db2, freezeGoalsForQuarter true .q1 2026 none 9 5 { goals := [] } = .ok db2 ∧
      db2.freezeLogs =
        [{ action := .freeze, quarter := .q1, year := 2026, affectedGoalsCount := 0,
           scheduledUnfreezeDate := none, performedBy := 9 }] := by
  obtain ⟨hall2, db2, hok⟩ :=
    (freeze_unfreeze_always_logged .q1 2026 none false none 9 5 { goals := [] }).1
  obtain ⟨hlog, -, -, -⟩ := hall2 db2 hok
  exact ⟨db2, hok, by simpa using hlog⟩

/-- C8: the progress update of a goal is rejected — with a validation error
(422 from the request schema or 400 from the service) and no mutation — when
the report is empty, the percentage is outside 0..100, or the goal has at
least one child; and every successful update appends exactly one immutable
progress-report row recording the old and new percentages. -/
theorem update_progress_validation
    (userId gid : Nat) (pct : Int) (report : String) (db : GoalDB) (g : Goal)
    (hfind : findGoal db gid = some g) :
    ((report = "" ∨ pct < 0 ∨ 100 < pct ∨ ∃ c ∈ db.goals, c.parentGoalId = some gid) →
       ∃ e, updateGoalProgress true userId gid pct report db = .error e ∧
         (e.status = 400 ∨ e.status = 422)) ∧
    (∀ db2, updateGoalProgress true userId gid pct report db = .ok db2 →
       db2.progressReports = db.progressReports ++
         [{ goalId := gid, oldPercentage := g.progressPercentage,
            newPercentage := pct, report := report, updatedBy := userId }]) := by
  constructor
  · intro hbad
    by_cases hrange : ¬(0 ≤ pct ∧ pct ≤ 100)
    · have h : updateGoalProgress true userId gid pct report db =
          .error ⟨422, "ensure this value is between 0 and 100"⟩ := by
        simp only [updateGoalProgress]
        rw [if_pos hrange]
      exact ⟨_, h, .inr rfl⟩
    · rw [not_not] at hrange
      by_cases hrep : report.length < 1
      · have h : updateGoalProgress true userId gid pct report db =
            .error ⟨422, "ensure this value has at least 1 characters"⟩ := by
          simp only [updateGoalProgress]
          rw [if_neg (not_not_intro hrange), if_pos hrep]
        exact ⟨_, h, .inr rfl⟩
      · have hchild : ∃ c ∈ db.goals, c.parentGoalId = some gid := by
          rcases hbad with h | h | h | h
          · exact absurd (by simp [h]) hrep
          · exact absurd h (by omega)
          · exact absurd h (by omega)
          · exact h
        have hnil : db.goals.filter (fun c => c.parentGoalId == some gid) ≠ [] := by
          obtain ⟨c, hc, hcp⟩ := hchild
          intro hemp
          have hmem : c ∈ db.goals.filter (fun c => c.parentGoalId == some gid) :=
            List.mem_filter.mpr ⟨hc, by simp [hcp]⟩
          rw [hemp] at hmem
          exact absurd hmem (List.not_mem_nil c)
        have hne : ¬((db.goals.filter (fun c => c.parentGoalId == some gid)).isEmpty = true) := by
          cases hfe : db.goals.filter (fun c => c.parentGoalId == some gid) with
          | nil => exact absurd hfe hnil
          | cons a t => simp
        have hguard : ¬((!true : Bool) = true) := by decide
        have h : updateGoalProgress true userId gid pct report db =
            .error ⟨400, "Only leaf goals accept manual progress updates"⟩ := by
          simp only [updateGoalProgress, hfind]
          rw [if_neg (not_not_intro hrange), if_neg hrep, if_neg hguard, if_pos hne]
        exact ⟨_, h, .inl rfl⟩
  · intro db2 hok
    simp only [updateGoalProgress, hfind] at hok
    split at hok
    · simp at hok
    · split at hok
      · simp at hok
      · split at hok
        · simp at hok
        · split at hok
          · simp at hok
          · injection hok with h
            subst h
            rfl

/-- C8 witness: on the store with one unfrozen leaf goal, an empty report is
rejected with a validation error. -/
theorem update_progress_empty_report_witness :
    ∃ e, updateGoalProgress true 9 1 50 "" demoLeafDB = .error e ∧
      (e.status = 400 ∨ e.status = 422) :=
  (update_progress_validation 9 1 50 "" demoLeafDB demoLeafGoal rfl).1 (.inl rfl)

/-- C9: a frozen goal rejects the edit, approve and respond operations with an
HTTP 400 error (for an actor passing the preceding permission checks), and the
store is left unchanged since the error is raised before the transaction
commits. -/
theorem frozen_goal_rejects_edit_approve_respond
    (db : GoalDB) (gid : Nat) (g : Goal) (upd : Goal → Goal) (userId : Nat)
    (approved : Bool) (rejectionReason : Option String) (accepted : Bool)
    (responseMessage : Option String) (now : Nat)
    (hfind : findGoal db gid = some g) (hfrozen : g.frozen = true) :
    (∃ e, updateGoal true gid upd db = .error e ∧ e.status = 400) ∧
    (∃ e, approveGoal true userId gid approved rejectionReason now db = .error e ∧
       e.status = 400) ∧
    (g.ownerId = some userId →
       ∃ e, respondGoal userId gid accepted responseMessage now db = .error e ∧
         e.status = 400) := by
  refine ⟨?_, ?_, ?_⟩
  · simp only [updateGoal, hfind]
    split
    case isTrue h => simp at h
    case isFalse _ => exact ⟨_, rfl, rfl⟩
  · simp only [approveGoal, hfind]
    split
    · exact ⟨_, rfl, rfl⟩
    · split
      · exact ⟨_, rfl, rfl⟩
      · split
        case isTrue h => simp at h
        case isFalse _ => exact ⟨_, rfl, rfl⟩
  · intro howner
    simp only [respondGoal, hfind]
    split
    case isTrue h => exact absurd howner h
    case isFalse _ =>
      split
      · exact ⟨_, rfl, rfl⟩
      · exact ⟨_, rfl, rfl⟩

/-- C9 witness: on the store with the frozen goal, the edit operation by a
permitted actor, the approve operation by an authorized approver and the
respond operation by the owner are all rejected with status 400. -/
theorem frozen_goal_rejections_witness :
    (∃ e, updateGoal true 1 id demoFrozenDB = .error e ∧ e.status = 400) ∧
    (∃ e, approveGoal true 9 1 true none 5 demoFrozenDB = .error e ∧ e.status = 400) ∧
    (∃ e, respondGoal 2 1 true none 5 demoFrozenDB = .error e ∧ e.status = 400) := by
  obtain ⟨h1, h2, -⟩ :=
    frozen_goal_rejects_edit_approve_respond demoFrozenDB 1 demoFrozenGoal id 9
      true none true none 5 rfl rfl
  obtain ⟨-, -, h3⟩ :=
    frozen_goal_rejects_edit_approve_respond demoFrozenDB 1 demoFrozenGoal id 2
      true none true none 5 rfl rfl
  exact ⟨h1, h2, h3 rfl⟩

/-- C10: deleting a goal that has at least one child is rejected with an HTTP
400 error (for an actor allowed to delete it), nothing is removed, and a
successful delete is only ever possible for a goal no other goal references as
its parent — so deletion never creates a dangling parent reference. -/
theorem delete_goal_with_children_rejected
    (db : GoalDB) (userId gid : Nat) (g : Goal)
    (hfind : findGoal db gid = some g) :
    ((∃ c ∈ db.goals, c.parentGoalId = some gid) →
       ∃ e, deleteGoal true userId gid db = .error e ∧ e.status = 400) ∧
    (∀ (perm : Bool) (db2 : GoalDB), deleteGoal perm userId gid db = .ok db2 →
       ∀ c ∈ db.goals, c.parentGoalId ≠ some gid) := by
  constructor
  · intro hchild
    have hnil : db.goals.filter (fun c => c.parentGoalId == some gid) ≠ [] := by
      obtain ⟨c, hc, hcp⟩ := hchild
      intro hemp
      have hmem : c ∈ db.goals.filter (fun c => c.parentGoalId == some gid) :=
        List.mem_filter.mpr ⟨hc, by simp [hcp]⟩
      rw [hemp] at hmem
      exact absurd hmem (List.not_mem_nil c)
    have hne2 : (!(db.goals.filter (fun c => c.parentGoalId == some gid)).isEmpty) = true := by
      cases hfe : db.goals.filter (fun c => c.parentGoalId == some gid) with
      | nil => exact absurd hfe hnil
      | cons a t => rfl
    simp only [deleteGoal, hfind]
    split
    · exact ⟨_, rfl, rfl⟩
    · split
      case isTrue h => simp at h
      case isFalse _ => exact ⟨_, rfl, rfl⟩
  · intro perm db2 hok c hc hcp
    simp only [deleteGoal, hfind] at hok
    split at hok
    · simp at hok
    · split at hok
      · simp at hok
      · split at hok
        case isTrue h => simp at hok
        case isFalse h =>
          apply h
          have hnil : db.goals.filter (fun x => x.parentGoalId == some gid) ≠ [] := by
            intro hemp
            have hmem : c ∈ db.goals.filter (fun x => x.parentGoalId == some gid) :=
              List.mem_filter.mpr ⟨hc, by simp [hcp]⟩
            rw [hemp] at hmem
            exact absurd hmem (List.not_mem_nil c)
          cases hfe : db.goals.filter (fun x => x.parentGoalId == some gid) with
          | nil => exact absurd hfe hnil
          | cons a t => rfl

/-- C10 witness: in the store where goal 2 references goal 1 as parent,
deleting goal 1 is rejected with status 400. -/
theorem delete_parent_goal_witness :
    ∃ e, deleteGoal true 9 1 demoParentDB = .error e ∧ e.status = 400 :=
  (delete_goal_with_children_rejected demoParentDB 9 1
    { id := 1, scope := .companyWide, createdBy := 9 } rfl).1
    ⟨{ id := 2, parentGoalId := some 1, scope := .departmental, createdBy := 9 },
      by decide, rfl⟩

/-- C4: the initial status of a created initiative is PENDING_APPROVAL when
the creator is the sole assignee, and ASSIGNED — with assigned_by set to the
creator and approved_at stamped, i.e. no approval step — when a supervisor
(the creator has a direct report among the assignees) assigns without being
among the assignees. -/
theorem initiative_initial_status
    (viewAll : Bool) (canAccessOrg : Option Nat → Bool) (creator : UserRec)
    (itype : InitiativeType) (dueDate : Nat) (assigneeIds : List Nat)
    (teamHeadId : Option Nat) (docIds : List Nat) (newId now : Nat)
    (db : InitiativeDB) (ini : Initiative) (db2 : InitiativeDB)
    (hok : createInitiative viewAll canAccessOrg creator itype dueDate assigneeIds
      teamHeadId docIds newId now db = .ok (ini, db2)) :
    (assigneeIds = [creator.id] → ini.status = .pendingApproval) ∧
    ((creator.id ∉ assigneeIds ∧
        ∃ u ∈ db.users, u.supervisorId = some creator.id ∧ u.id ∈ assigneeIds) →
      ini.status = .assigned ∧ ini.assignedBy = some creator.id ∧
        ini.approvedAt = some now) := by
  simp only [createInitiative] at hok
  split at hok
  · simp at hok
  · split at hok
    · simp at hok
    · injection hok with h
      injection h with h1 h2
      subst h1
      constructor
      · intro hself
        subst hself
        simp [initialInitiativeStatus]
      · rintro ⟨hnotin, u, hu, husup, huin⟩
        have hsup : hasSupervisees db creator.id = true :=
          List.any_eq_true.mpr ⟨u, hu, by simp [husup]⟩
        have hst : initialInitiativeStatus db creator.id assigneeIds = .assigned := by
          unfold initialInitiativeStatus
          rw [if_neg (fun hand => hnotin hand.1), if_pos ⟨hsup, hnotin⟩]
        exact ⟨by simp [hst], by simp [hst], by simp [hst]⟩

/-- C4 witness: with creator 1 (who has direct report 2), assigning to the
report alone yields ASSIGNED and self-assigning yields PENDING_APPROVAL. -/
theorem initiative_initial_status_witness :
    (∃ p, createInitiative false (fun _ => true) demoCreator .individual 30 [2] none [] 7 3
        demoInitUsersDB = .ok p ∧ p.1.status = .assigned) ∧
    (∃ p, createInitiative false (fun _ => true) demoCreator .individual 30 [1] none [] 8 3
        demoInitUsersDB = .ok p ∧ p.1.status = .pendingApproval) := by
  constructor
  · obtain ⟨ini, db2, hok⟩ : ∃ ini db2,
        createInitiative false (fun _ => true) demoCreator .individual 30 [2] none [] 7 3
          demoInitUsersDB = .ok (ini, db2) := ⟨_, _, rfl⟩
    have h := (initiative_initial_status false (fun _ => true) demoCreator .individual 30 [2]
      none [] 7 3 demoInitUsersDB ini db2 hok).2 ⟨by decide, by decide⟩
    exact ⟨(ini, db2), hok, h.1⟩
  · obtain ⟨ini, db2, hok⟩ : ∃ ini db2,
        createInitiative false (fun _ => true) demoCreator .individual 30 [1] none [] 8 3
          demoInitUsersDB = .ok (ini, db2) := ⟨_, _, rfl⟩
    have h := (initiative_initial_status false (fun _ => true) demoCreator .individual 30 [1]
      none [] 8 3 demoInitUsersDB ini db2 hok).1 (by decide)
    exact ⟨(ini, db2), hok, h⟩

/-- C6: for a GROUP initiative, a user who is not the team head can neither
submit nor request an extension: whatever the initiative's current status, the
attempt raises a validation error, and since every raise precedes the commit
no submission or extension row is created. -/
theorem group_submit_requires_team_head
    (db : InitiativeDB) (iid userId : Nat) (report : String) (docIds : List Nat)
    (newDueDate extId : Nat) (reason : String) (ini : Initiative)
    (hfind : db.initiatives.find? (fun i => i.id == iid) = some ini)
    (hgroup : ini.type = .group)
    (hnothead : ini.teamHeadId ≠ some userId) :
    (∃ m, submitInitiative db iid userId report docIds = .error m) ∧
    (∃ m, requestExtension db iid userId newDueDate extId reason = .error m) := by
  constructor
  · simp only [submitInitiative, hfind]
    split
    · exact ⟨_, rfl⟩
    · split
      · exact ⟨_, rfl⟩
      · rw [if_pos ⟨hgroup, hnothead⟩]
        exact ⟨_, rfl⟩
  · simp only [requestExtension, hfind]
    rw [if_pos ⟨hgroup, hnothead⟩]
    exact ⟨_, rfl⟩

/-- C6 witness: user 3 (not the team head 2) can neither submit nor request an
extension for the started group initiative 11. -/
theorem group_submit_witness :
    (∃ m, submitInitiative demoInitDB 11 3 "done" [] = .error m) ∧
    (∃ m, requestExtension demoInitDB 11 3 40 22 "more" = .error m) :=
  group_submit_requires_team_head demoInitDB 11 3 "done" [] 40 22 "more" demoGroupInit
    rfl rfl (by decide)

/-- C7: at most one PENDING extension per initiative — requesting an extension
while one is PENDING fails with a validation error and adds no row, and a
successful request preserves the at-most-one-PENDING invariant — and approving
a pending extension moves the initiative's due date to the requested one,
restoring an OVERDUE initiative to ONGOING, while marking the extension
APPROVED. -/
theorem extension_pending_unique_and_approval
    (db : InitiativeDB) (iid userId newDueDate extId : Nat) (reason : String) :
    ((∃ e ∈ db.extensions, e.initiativeId = iid ∧ e.status = .pending) →
       ∃ m, requestExtension db iid userId newDueDate extId reason = .error m) ∧
    (atMostOnePending db → ∀ db2,
       requestExtension db iid userId newDueDate extId reason = .ok db2 →
       atMostOnePending db2) ∧
    (∀ (ext : InitiativeExtensionRec) (ini : Initiative) (reviewerId : Nat),
       db.extensions.find? (fun e => e.id == extId) = some ext →
       ext.status = .pending →
       db.initiatives.find? (fun i => i.id == ext.initiativeId) = some ini →
       ini.createdBy = reviewerId →
       ∃ db2, reviewExtension db extId reviewerId true = .ok db2 ∧
         (∃ i2 ∈ db2.initiatives, i2.id = ini.id ∧ i2.dueDate = ext.newDueDate ∧
            i2.status = (if ini.status = .overdue then InitiativeStatus.ongoing
              else ini.status)) ∧
         (∃ e2 ∈ db2.extensions, e2.id = ext.id ∧ e2.status = .approved)) := by
  refine ⟨?_, ?_, ?_⟩
  · intro hpend
    have hsome : (db.extensions.find?
        (fun e => e.initiativeId == iid && e.status == ExtensionStatus.pending)).isSome = true := by
      rw [List.find?_isSome]
      obtain ⟨e, he, h1, h2⟩ := hpend
      exact ⟨e, he, by simp [h1, h2]⟩
    cases hfind : db.initiatives.find? (fun i => i.id == iid) with
    | none =>
      refine ⟨"Initiative not found", ?_⟩
      simp only [requestExtension, hfind]
    | some ini =>
      simp only [requestExtension, hfind]
      split
      · exact ⟨_, rfl⟩
      · split
        · exact ⟨_, rfl⟩
        · exact ⟨_, rfl⟩
  · intro hmono db2 hok
    simp only [requestExtension] at hok
    split at hok
    · simp at hok
    · split at hok
      · simp at hok
      · split at hok
        · simp at hok
        · split at hok
          case isTrue hni => simp at hok
          case isFalse hni =>
            injection hok with h
            subst h
            rw [List.find?_isSome] at hni
            intro j
            simp only [List.filter_append, List.length_append]
            by_cases hj : iid = j
            · subst hj
              have hfe : db.extensions.filter
                  (fun e => e.initiativeId == iid && e.status == ExtensionStatus.pending) = [] := by
                rw [List.filter_eq_nil_iff]
                intro e he hp
                exact hni ⟨e, he, hp⟩
              rw [hfe]
              simp
            · have hsingle : List.filter
                  (fun e => e.initiativeId == j && e.status == ExtensionStatus.pending)
                  ([{ id := extId, initiativeId := iid, requestedBy := userId,
                      newDueDate := newDueDate, reason := reason }] :
                    List InitiativeExtensionRec) = [] := by
                simp [hj]
              rw [hsingle]
              simpa using hmono j
  · intro ext ini reviewerId hfext hpend hfini hcreator
    have hni : ¬(ini.createdBy ≠ reviewerId) := fun hne => hne hcreator
    have hpe : ¬(ext.status ≠ ExtensionStatus.pending) := fun hne => hne hpend
    simp only [reviewExtension, hfext, hfini]
    rw [if_neg hni, if_neg hpe, if_pos trivial]
    refine ⟨_, rfl, ?_, ?_⟩
    · have hmem : ini ∈ db.initiatives := List.mem_of_find?_eq_some hfini
      have hid : (ini.id == ext.initiativeId) = true := by
        simpa using List.find?_some hfini
      refine ⟨_, List.mem_map.mpr ⟨ini, hmem, rfl⟩, ?_⟩
      simp [hid]
    · have hmemE : ext ∈ db.extensions := List.mem_of_find?_eq_some hfext
      have hidE : (ext.id == extId) = true := by
        simpa using List.find?_some hfext
      refine ⟨_, List.mem_map.mpr ⟨ext, hmemE, rfl⟩, ?_⟩
      simp [hidE]

/-- C7 witness: on the store with the overdue group initiative 11 and its
pending extension 21 (new due date 60), a second extension request by the team
head is rejected, and the creator approving extension 21 moves the due date to
60, restores the initiative to ONGOING and marks the extension APPROVED. -/
theorem extension_pending_unique_witness :
    (∃ m, requestExtension demoOverdueDB 11 2 70 23 "again" = .error m) ∧
    (∃ db2, reviewExtension demoOverdueDB 21 1 true = .ok db2 ∧
       (∃ i2 ∈ db2.initiatives, i2.id = 11 ∧ i2.dueDate = 60 ∧
          i2.status = InitiativeStatus.ongoing) ∧
       (∃ e2 ∈ db2.extensions, e2.id = 21 ∧ e2.status = ExtensionStatus.approved)) := by
  constructor
  · exact (extension_pending_unique_and_approval demoOverdueDB 11 2 70 23 "again").1
      ⟨demoPendingExt, by decide, rfl, rfl⟩
  · obtain ⟨db2, hok, hi, he⟩ :=
      (extension_pending_unique_and_approval demoOverdueDB 11 2 70 21 "again").2.2
        demoPendingExt demoOverdueInit 1 rfl rfl rfl rfl
    exact ⟨db2, hok, hi, he⟩

end PMS
